import Mathlib

/-!
Shallow embedding of brainweb/utils.py (labeled-phantom to PET/muMap/T1/T2
conversion) together with proofs about its tissue-code registry, composite
masks, modality paint loops, mu-map construction, resize/pad geometry and
noise injection.

Conventions of the embedding:
* voxel values are integers (the labeled volume is loaded as 16-bit
  unsigned integer codes); volumes are flat lists of voxels;
* dynamic attribute lookup (getattr) is modelled by string-keyed lookup
  functions returning Option, none standing for AttributeError;
* numpy float constants (resolutions, mu values) are exact rationals;
* the process-wide numpy random state is modelled as an explicit stream,
  and the external Gaussian smoothing collaborator as a function argument.
-/

namespace Brainweb

/-- Base tissue code for index i, written as in the source list
comprehension: i left-shifted by 4 (utils.py line 96). -/
def actCode (i : ℕ) : ℤ := ((i <<< 4 : ℕ) : ℤ)

/-- The twelve base label names of the Act registry, in declaration order
(utils.py lines 94-96). -/
def actNames : List String :=
  ["background", "csf", "greyMatter", "whiteMatter", "fat", "muscle",
   "skin", "skull", "vessels", "aroundFat", "dura", "marrow"]

/-- Composite bone code: skull OR marrow OR dura, bitwise, as in
utils.py line 97. -/
def boneCode : ℤ := (((7 <<< 4 : ℕ) ||| (11 <<< 4 : ℕ) ||| (10 <<< 4 : ℕ) : ℕ) : ℤ)

/-- Attribute lookup on the Act class (utils.py lines 92-97): the twelve
base codes plus the derived bone attribute; none models AttributeError. -/
def actAttr (attr : String) : Option ℤ :=
  if attr = "background" then some (actCode 0)
  else if attr = "csf" then some (actCode 1)
  else if attr = "greyMatter" then some (actCode 2)
  else if attr = "whiteMatter" then some (actCode 3)
  else if attr = "fat" then some (actCode 4)
  else if attr = "muscle" then some (actCode 5)
  else if attr = "skin" then some (actCode 6)
  else if attr = "skull" then some (actCode 7)
  else if attr = "vessels" then some (actCode 8)
  else if attr = "aroundFat" then some (actCode 9)
  else if attr = "dura" then some (actCode 10)
  else if attr = "marrow" then some (actCode 11)
  else if attr = "bone" then some boneCode
  else none

/-- Base-label membership test of Act.indices, per voxel: absolute
difference of the voxel value and getattr(cls, attr) is below 1
(utils.py line 105). -/
def indicesBase (v : ℤ) (attr : String) : Option Bool :=
  (actAttr attr).map fun a => decide (|v - a| < 1)

/-- Act.indices per voxel (utils.py lines 99-105): the composite label
bone is the sum of the skull, marrow and dura masks tested against zero
(the recursive calls are inlined, since their argument is never bone);
every other label is the base test. -/
def Act.indices (v : ℤ) (attr : String) : Option Bool :=
  if attr = "bone" then do
    let s ← indicesBase v "skull"
    let m ← indicesBase v "marrow"
    let d ← indicesBase v "dura"
    pure (decide (0 < ((if s then 1 else 0) + (if m then 1 else 0) +
      (if d then 1 else 0) : ℕ)))
  else indicesBase v attr

/-- Pet profile overrides (utils.py lines 108-112). -/
def Pet.whiteMatter : ℤ := 32

/-- Pet grey matter value, four times white matter (utils.py line 110). -/
def Pet.greyMatter : ℤ := Pet.whiteMatter * 4

/-- Pet skin value, floor half of white matter (utils.py line 111). -/
def Pet.skin : ℤ := Pet.whiteMatter / 2

/-- Labels the Pet profile paints, in loop order (utils.py line 112). -/
def Pet.attrs : List String := ["whiteMatter", "greyMatter", "skin"]

/-- Attribute lookup on the Pet class: its three overrides, falling back
to the inherited Act attributes (class Pet(Act), utils.py line 108). -/
def petAttr (attr : String) : Option ℤ :=
  if attr = "whiteMatter" then some Pet.whiteMatter
  else if attr = "greyMatter" then some Pet.greyMatter
  else if attr = "skin" then some Pet.skin
  else actAttr attr

/-- Labels the T1 profile paints, in loop order (utils.py lines 123-124). -/
def T1.attrs : List String :=
  ["whiteMatter", "greyMatter", "skin", "skull", "marrow", "bone", "csf"]

/-- Attribute lookup on the T1 class: its seven overrides (utils.py
lines 115-122), falling back to the inherited Act attributes. -/
def t1Attr (attr : String) : Option ℤ :=
  if attr = "whiteMatter" then some 154
  else if attr = "greyMatter" then some 106
  else if attr = "skin" then some 92
  else if attr = "skull" then some 48
  else if attr = "marrow" then some 180
  else if attr = "bone" then some 48
  else if attr = "csf" then some 48
  else actAttr attr

/-- Labels the T2 profile paints: attrs is inherited unchanged from T1
(class T2(T1), utils.py line 127). -/
def T2.attrs : List String := T1.attrs

/-- Attribute lookup on the T2 class: its seven overrides (utils.py
lines 128-134), falling back to the inherited T1 attributes. -/
def t2Attr (attr : String) : Option ℤ :=
  if attr = "whiteMatter" then some 70
  else if attr = "greyMatter" then some 100
  else if attr = "skin" then some 70
  else if attr = "skull" then some 100
  else if attr = "marrow" then some 250
  else if attr = "csf" then some 250
  else if attr = "bone" then some 200
  else t1Attr attr

/-- One modality paint loop of toPetMmr, restricted to a single voxel
(utils.py lines 186-189, 198-206): the accumulator starts at zero
(np.zeros_like) and each listed attr overwrites the voxel with the
profile value whenever the Act-class mask selects it. -/
def paintVoxelLoop (prof : String → Option ℤ) (v : ℤ) :
    List String → ℤ → Option ℤ
  | [], acc => some acc
  | attr :: rest, acc => do
    let m ← Act.indices v attr
    let pv ← prof attr
    paintVoxelLoop prof v rest (if m then pv else acc)

/-- Painted value of one voxel for a profile: the loop starting from the
zero fill. -/
def paintVoxel (prof : String → Option ℤ) (attrs : List String) (v : ℤ) :
    Option ℤ :=
  paintVoxelLoop prof v attrs 0

/-- Linear attenuation value of bone, 1/cm (utils.py line 137). -/
def mu_bone_1_cm : ℚ := 0.13

/-- Linear attenuation value of generic tissue, 1/cm (utils.py line 138). -/
def mu_tissue_1_cm : ℚ := 0.0975

/-- Mu-map value of one voxel (utils.py lines 192-194): start from zero,
set nonzero-label voxels to the tissue value, then overwrite voxels of
the composite bone mask with the bone value. -/
def muVoxel (v : ℤ) : Option ℚ := do
  let b ← Act.indices v "bone"
  let m0 : ℚ := 0
  let m1 := if v ≠ 0 then mu_tissue_1_cm else m0
  pure (if b then mu_bone_1_cm else m1)

/-- The four per-voxel outputs of toPetMmr before resampling, in the
order of the returned list (utils.py line 226): PET, muMap, T1, T2. -/
def toPetMmrVoxel (v : ℤ) : Option (ℤ × ℚ × ℤ × ℤ) := do
  let p ← paintVoxel petAttr Pet.attrs v
  let mu ← muVoxel v
  let a ← paintVoxel t1Attr T1.attrs v
  let b ← paintVoxel t2Attr T2.attrs v
  pure (p, mu, a, b)

/-- Volume-level base mask of Act.indices (utils.py line 105): getattr
is evaluated once (none for AttributeError, even on an empty volume),
then the elementwise test is broadcast over the volume. -/
def baseMaskVol (im : List ℤ) (attr : String) : Option (List Bool) :=
  (actAttr attr).map fun a => im.map fun v => decide (|v - a| < 1)

/-- Volume-level Act.indices (utils.py lines 99-105): for bone, the sum
of the three base boolean masks compared against zero elementwise; for
anything else the base mask. -/
def maskVol (im : List ℤ) (attr : String) : Option (List Bool) :=
  if attr = "bone" then do
    let s ← baseMaskVol im "skull"
    let m ← baseMaskVol im "marrow"
    let d ← baseMaskVol im "dura"
    pure ((List.zipWith (fun (x : ℕ) (c : Bool) => x + if c then 1 else 0)
      (List.zipWith (fun (a b : Bool) =>
        (if a then 1 else 0) + (if b then 1 else 0)) s m) d).map
      fun x => decide (0 < x))
  else baseMaskVol im attr

/-- Voxel resolutions of the three coordinate systems, mm per voxel
(utils.py lines 141-144). -/
def Res.mMR : List ℚ := [2.0312, 2.0863, 2.0863]

/-- MR system resolution (utils.py line 143). -/
def Res.MR : List ℚ := [1.0, 1.0, 1.0]

/-- Native brainweb phantom resolution (utils.py line 144). -/
def Res.brainweb : List ℚ := [0.5, 0.5, 0.5]

/-- getattr on the Res class. -/
def Res.get (outres : String) : Option (List ℚ) :=
  if outres = "mMR" then some Res.mMR
  else if outres = "MR" then some Res.MR
  else if outres = "brainweb" then some Res.brainweb
  else none

/-- Output shape of the mMR system (utils.py line 148). -/
def Shape.mMR : List ℚ := [127, 344, 344]

/-- MR shape, derived by elementwise scaling mMR shape by the resolution
quotient (utils.py line 149); kept as rationals, as numpy keeps floats. -/
def Shape.MR : List ℚ :=
  (List.zipWith (· * ·) Shape.mMR Res.mMR).zipWith (· / ·) Res.MR

/-- Brainweb shape, same derivation against the brainweb resolution
(utils.py line 150). -/
def Shape.brainweb : List ℚ :=
  (List.zipWith (· * ·) Shape.mMR Res.mMR).zipWith (· / ·) Res.brainweb

/-- getattr on the Shape class. -/
def Shape.get (outres : String) : Option (List ℚ) :=
  if outres = "mMR" then some Shape.mMR
  else if outres = "MR" then some Shape.MR
  else if outres = "brainweb" then some Shape.brainweb
  else none

/-- np.rint: round to nearest integer, ties to even. -/
def rint (q : ℚ) : ℤ :=
  let f := ⌊q⌋
  let r := q - (f : ℚ)
  if r < 1/2 then f
  else if 1/2 < r then f + 1
  else if f % 2 = 0 then f else f + 1

/-- astype(int) on a float scalar: truncation toward zero. -/
def truncQ (q : ℚ) : ℤ := if 0 ≤ q then ⌊q⌋ else ⌈q⌉

/-- Resampled shape per axis: np.rint(im.shape * Res.brainweb / out_res)
(utils.py line 209), the input shape being natural numbers. -/
def newShape (ishape : List ℕ) (oRes : List ℚ) : List ℤ :=
  ((List.zipWith (fun (s : ℕ) (r : ℚ) => (s : ℚ) * r) ishape Res.brainweb).zipWith
    (· / ·) oRes).map rint

/-- Pad widths for one axis (utils.py lines 210, 219-220):
padLR, padR = divmod(out_shape - new_shape, 2) with numpy floor
conventions, the applied widths being padLR.astype(int) on the left and
(padLR + padR).astype(int) on the right.  padLR is integer-valued, so
its int cast is its floor. -/
def padWidthsAxis (t : ℚ) (n : ℤ) : ℤ × ℤ :=
  let d : ℚ := t - (n : ℚ)
  let l : ℤ := ⌊d / 2⌋
  let r : ℚ := d - 2 * (l : ℚ)
  (l, truncQ ((l : ℚ) + r))

/-- Shape part of resizeToMmr (utils.py lines 212-224): resize to the
new shape, then (when pad is set) zero-pad each axis by the computed
widths.  np.pad raises on a negative width, modelled as none. -/
def resizeToMmrShape (ns : List ℤ) (pad : Bool) (tshape : List ℚ) :
    Option (List ℤ) :=
  if pad then
    let ws := List.zipWith (fun n t => padWidthsAxis t n) ns tshape
    if ws.all (fun w => decide (0 ≤ w.1) && decide (0 ≤ w.2)) then
      some (List.zipWith (fun n (w : ℤ × ℤ) => n + w.1 + w.2) ns ws)
    else none
  else some ns

/-- Element dtypes that matter to resizeToMmr. -/
inductive Dtype
  | uint16
  | float32
  | float64
  deriving DecidableEq

/-- Modelled from the spec: the resampling step (section 4.3 step 4)
is the external resize collaborator computing linear interpolation,
whose output is floating-point data; only the dtype test of utils.py
line 222 is applied to it here. -/
def resizeOutputDtype : Dtype := Dtype.float64

/-- Dtype finalization of resizeToMmr (utils.py lines 222-224): a
uint16 resized array is rescaled to float32, anything else is cast to
the requested dtype. -/
def finalizeDtype (resized : Dtype) (dtype : Dtype) : Dtype :=
  if resized = Dtype.uint16 then Dtype.float32 else dtype

/-- Shape and dtype of one resizeToMmr output. -/
def resizeToMmrMeta (ishape : List ℕ) (pad : Bool) (dtype : Dtype)
    (outres : String) : Option (List ℤ × Dtype) := do
  let oRes ← Res.get outres
  let tshape ← Shape.get outres
  let fs ← resizeToMmrShape (newShape ishape oRes) pad tshape
  pure (fs, finalizeDtype resizeOutputDtype dtype)

/-- Shapes and dtypes of the list returned by toPetMmr (utils.py
line 226): the four volumes PET, muMap, T1, T2 in order, each passed
through the same resizeToMmr. -/
def toPetMmrMeta (ishape : List ℕ) (pad : Bool) (dtype : Dtype)
    (outres : String) : Option (List (List ℤ × Dtype)) := do
  let m ← resizeToMmrMeta ishape pad dtype outres
  pure [m, m, m, m]

/-- noise (utils.py lines 158-172).  The numpy global random state is
the explicit stream argument, of which the uniform field np.random.rand
takes one draw per voxel; the external Gaussian smoothing collaborator
(skimage.filters.gaussian with the given sigma) is the function
argument smooth.  A negative fraction raises ValueError; zero noise
returns the input volume and leaves the stream untouched; otherwise the
output is im * (1 + n * (2 * r - 1)) elementwise on the smoothed field
r, together with the remaining stream. -/
def noise (im : List ℚ) (n : ℚ) (smooth : List ℚ → List ℚ)
    (stream : List ℚ) : Except String (List ℚ × List ℚ) :=
  if n < 0 then .error "Noise must be positive"
  else if n = 0 then .ok (im, stream)
  else
    let rand := stream.take im.length
    let r := smooth rand
    .ok (((im.zip r).map fun p => p.1 * (1 + n * (2 * p.2 - 1))),
      stream.drop im.length)

/-- Mutable state of the paint phase of toPetMmr: the input volume next
to the four accumulating output volumes, all numpy arrays in the
source. -/
structure MmrState where
  im : List ℤ
  res : List ℤ
  muMap : List ℚ
  t1 : List ℤ
  t2 : List ℤ
  deriving DecidableEq

/-- One masked assignment vol[Act.indices(im, attr)] = value, on a copy
of the target volume. -/
def assignMasked (im cur : List ℤ) (attr : String) (value : ℤ) :
    Option (List ℤ) := do
  let m ← maskVol im attr
  pure ((cur.zip m).map fun p => if p.2 then value else p.1)

/-- PET paint loop of toPetMmr (utils.py lines 186-189), writing into
the res field. -/
def petLoop (σ : MmrState) : Option MmrState :=
  Pet.attrs.foldlM (fun s attr => do
    let v ← petAttr attr
    let r ← assignMasked s.im s.res attr v
    pure { s with res := r }) σ

/-- Mu-map construction of toPetMmr (utils.py lines 192-194): tissue
fill of the nonzero voxels, then the bone overwrite. -/
def muStep (σ : MmrState) : Option MmrState := do
  let b ← maskVol σ.im "bone"
  let s1 := (σ.im.zip σ.muMap).map fun p =>
    if p.1 ≠ 0 then mu_tissue_1_cm else p.2
  pure { σ with muMap := (s1.zip b).map fun p =>
    if p.2 then mu_bone_1_cm else p.1 }

/-- T1 paint loop of toPetMmr (utils.py lines 198-201). -/
def t1Loop (σ : MmrState) : Option MmrState :=
  T1.attrs.foldlM (fun s attr => do
    let v ← t1Attr attr
    let r ← assignMasked s.im s.t1 attr v
    pure { s with t1 := r }) σ

/-- T2 paint loop of toPetMmr (utils.py lines 203-206). -/
def t2Loop (σ : MmrState) : Option MmrState :=
  T2.attrs.foldlM (fun s attr => do
    let v ← t2Attr attr
    let r ← assignMasked s.im s.t2 attr v
    pure { s with t2 := r }) σ

/-- Paint phase of toPetMmr (utils.py lines 184-206) as a state
pipeline: the four output volumes start as zero fills and the input
volume im is carried through every step. -/
def toPetMmrPaint (im : List ℤ) : Option MmrState := do
  let z : List ℤ := List.replicate im.length 0
  let zq : List ℚ := List.replicate im.length 0
  let σ1 ← petLoop ⟨im, z, zq, z, z⟩
  let σ2 ← muStep σ1
  let σ3 ← t1Loop σ2
  t2Loop σ3

/-- Over the integers, the tolerance-1 test of the registry collapses
to equality with the label code. -/
theorem abs_sub_lt_one_int (v a : ℤ) : |v - a| < 1 ↔ v = a := by
  rw [abs_lt]; omega

/-- Two elementwise maps of the same volume combine into one. -/
theorem zipWith_map_same {α β γ δ : Type} (h : β → γ → δ) (f : α → β)
    (g : α → γ) (l : List α) :
    List.zipWith h (l.map f) (l.map g) = l.map fun v => h (f v) (g v) := by
  induction l with
  | nil => rfl
  | cons x t ih => simp [ih]

/-- C1: the mu-map of toPetMmr holds mu_bone_1_cm = 0.13 at every voxel
of the composite bone mask, mu_tissue_1_cm = 0.0975 at every other
nonzero voxel, and 0 at every zero voxel; the bone write comes after
the tissue fill, so it wins on bone voxels. -/
theorem mu_map_values (v : ℤ) :
    (Act.indices v "bone" = some true → muVoxel v = some mu_bone_1_cm) ∧
    (Act.indices v "bone" = some false → v ≠ 0 →
      muVoxel v = some mu_tissue_1_cm) ∧
    (v = 0 → muVoxel v = some 0) ∧
    mu_bone_1_cm = 13 / 100 ∧ mu_tissue_1_cm = 975 / 10000 := by
  refine ⟨fun hb => ?_, fun hb hv => ?_, fun hv => ?_, by norm_num [mu_bone_1_cm],
    by norm_num [mu_tissue_1_cm]⟩
  · simp [muVoxel, hb]
  · simp [muVoxel, hb, hv]
  · subst hv; rfl

/-- Witness for C1 at a bone voxel, a tissue voxel and a zero voxel. -/
theorem mu_map_values_witness :
    muVoxel 112 = some mu_bone_1_cm ∧ muVoxel 64 = some mu_tissue_1_cm ∧
    muVoxel 0 = some 0 :=
  ⟨(mu_map_values 112).1 (by decide),
   (mu_map_values 64).2.1 (by decide) (by decide),
   (mu_map_values 0).2.2.1 rfl⟩

/-- Numpy sum of three booleans compared against zero is their OR. -/
theorem bone_sum_or (a b c : Bool) :
    decide (0 < ((if a then 1 else 0) + (if b then 1 else 0) +
      (if c then 1 else 0) : ℕ)) = ((a || b) || c) := by
  cases a <;> cases b <;> cases c <;> rfl

/-- C2: the composite bone mask of a volume is the elementwise OR of
its skull, marrow and dura masks. -/
theorem bone_mask_union (im : List ℤ) (s m d : List Bool)
    (hs : maskVol im "skull" = some s) (hm : maskVol im "marrow" = some m)
    (hd : maskVol im "dura" = some d) :
    maskVol im "bone" =
      some (List.zipWith (· || ·) (List.zipWith (· || ·) s m) d) := by
  have hs' : s = im.map fun v => decide (|v - 112| < 1) := by
    have : maskVol im "skull" =
        some (im.map fun v => decide (|v - 112| < 1)) := rfl
    rw [this] at hs; exact (Option.some_injective _ hs).symm
  have hm' : m = im.map fun v => decide (|v - 176| < 1) := by
    have : maskVol im "marrow" =
        some (im.map fun v => decide (|v - 176| < 1)) := rfl
    rw [this] at hm; exact (Option.some_injective _ hm).symm
  have hd' : d = im.map fun v => decide (|v - 160| < 1) := by
    have : maskVol im "dura" =
        some (im.map fun v => decide (|v - 160| < 1)) := rfl
    rw [this] at hd; exact (Option.some_injective _ hd).symm
  subst hs' hm' hd'
  have hbone : maskVol im "bone" =
      some ((List.zipWith (fun (x : ℕ) (c : Bool) => x + if c then 1 else 0)
        (List.zipWith (fun (a b : Bool) =>
          (if a then 1 else 0) + (if b then 1 else 0))
          (im.map fun v => decide (|v - 112| < 1))
          (im.map fun v => decide (|v - 176| < 1)))
        (im.map fun v => decide (|v - 160| < 1))).map
        fun x => decide (0 < x)) := rfl
  rw [hbone, zipWith_map_same, zipWith_map_same, zipWith_map_same,
    zipWith_map_same, List.map_map]
  refine congrArg some (List.map_congr_left fun v _ => ?_)
  simp only [Function.comp_apply]
  exact bone_sum_or _ _ _

/-- Witness for C2 on a volume holding each bone constituent, a zero
voxel and an unrelated tissue voxel. -/
theorem bone_mask_union_witness :
    maskVol [112, 0, 176, 160, 64] "bone" =
      some (List.zipWith (· || ·)
        (List.zipWith (· || ·) [true, false, false, false, false]
          [false, false, true, false, false])
        [false, false, false, true, false]) :=
  bone_mask_union [112, 0, 176, 160, 64] _ _ _ (by decide) (by decide)
    (by decide)

/-- C5: there are twelve base labels whose values are the successive
left-shifts i shifted by 4 in declaration order (spacing 16), and the
mask of any base label holds at exactly the voxels within absolute
difference 1 of its value. -/
theorem base_label_mask :
    actNames.length = 12 ∧
    (∀ i : Fin actNames.length, actAttr (actNames.get i) = some (actCode i)) ∧
    (∀ attr ∈ actNames, ∀ v : ℤ, ∃ a, actAttr attr = some a ∧
      (Act.indices v attr = some true ↔ |v - a| < 1)) := by
  refine ⟨rfl, by decide, ?_⟩
  intro attr hattr v
  simp only [actNames, List.mem_cons, List.not_mem_nil, or_false] at hattr
  rcases hattr with rfl | rfl | rfl | rfl | rfl | rfl | rfl | rfl | rfl |
    rfl | rfl | rfl
  · exact ⟨actCode 0, rfl, by
      rw [show Act.indices v "background" =
        some (decide (|v - actCode 0| < 1)) from rfl]; simp⟩
  · exact ⟨actCode 1, rfl, by
      rw [show Act.indices v "csf" =
        some (decide (|v - actCode 1| < 1)) from rfl]; simp⟩
  · exact ⟨actCode 2, rfl, by
      rw [show Act.indices v "greyMatter" =
        some (decide (|v - actCode 2| < 1)) from rfl]; simp⟩
  · exact ⟨actCode 3, rfl, by
      rw [show Act.indices v "whiteMatter" =
        some (decide (|v - actCode 3| < 1)) from rfl]; simp⟩
  · exact ⟨actCode 4, rfl, by
      rw [show Act.indices v "fat" =
        some (decide (|v - actCode 4| < 1)) from rfl]; simp⟩
  · exact ⟨actCode 5, rfl, by
      rw [show Act.indices v "muscle" =
        some (decide (|v - actCode 5| < 1)) from rfl]; simp⟩
  · exact ⟨actCode 6, rfl, by
      rw [show Act.indices v "skin" =
        some (decide (|v - actCode 6| < 1)) from rfl]; simp⟩
  · exact ⟨actCode 7, rfl, by
      rw [show Act.indices v "skull" =
        some (decide (|v - actCode 7| < 1)) from rfl]; simp⟩
  · exact ⟨actCode 8, rfl, by
      rw [show Act.indices v "vessels" =
        some (decide (|v - actCode 8| < 1)) from rfl]; simp⟩
  · exact ⟨actCode 9, rfl, by
      rw [show Act.indices v "aroundFat" =
        some (decide (|v - actCode 9| < 1)) from rfl]; simp⟩
  · exact ⟨actCode 10, rfl, by
      rw [show Act.indices v "dura" =
        some (decide (|v - actCode 10| < 1)) from rfl]; simp⟩
  · exact ⟨actCode 11, rfl, by
      rw [show Act.indices v "marrow" =
        some (decide (|v - actCode 11| < 1)) from rfl]; simp⟩

/-- Witness for C5 at the skull label and voxels 112 and 113. -/
theorem base_label_mask_witness :
    "skull" ∈ actNames ∧
    (∃ a, actAttr "skull" = some a ∧
      (Act.indices 112 "skull" = some true ↔ |(112 : ℤ) - a| < 1)) ∧
    (∃ a, actAttr "skull" = some a ∧
      (Act.indices 113 "skull" = some true ↔ |(113 : ℤ) - a| < 1)) :=
  ⟨by decide, base_label_mask.2.2 "skull" (by decide) 112,
    base_label_mask.2.2 "skull" (by decide) 113⟩

/-- Closed form of the PET paint loop on one voxel: the three listed
labels select by the Act base codes 48, 32, 96 and write the Pet values
32, 128, 16, later writes winning. -/
theorem petVoxel_eval (v : ℤ) :
    paintVoxel petAttr Pet.attrs v =
      some (if |v - 96| < 1 then 16 else if |v - 32| < 1 then 128
        else if |v - 48| < 1 then 32 else 0) := by
  have h1 : ∀ acc : ℤ, paintVoxelLoop petAttr v Pet.attrs acc =
      paintVoxelLoop petAttr v ["greyMatter", "skin"]
        (if decide (|v - 48| < 1) then 32 else acc) := fun acc => rfl
  have h2 : ∀ acc : ℤ, paintVoxelLoop petAttr v ["greyMatter", "skin"] acc =
      paintVoxelLoop petAttr v ["skin"]
        (if decide (|v - 32| < 1) then 128 else acc) := fun acc => rfl
  have h3 : ∀ acc : ℤ, paintVoxelLoop petAttr v ["skin"] acc =
      some (if decide (|v - 96| < 1) then 16 else acc) := fun acc => rfl
  rw [show paintVoxel petAttr Pet.attrs v =
    paintVoxelLoop petAttr v Pet.attrs 0 from rfl, h1, h2, h3]
  by_cases hs : |v - 96| < 1 <;> by_cases hg : |v - 32| < 1 <;>
    by_cases hw : |v - 48| < 1 <;> simp [hs, hg, hw]

/-- C6: the PET paint loop selects voxels with the base Act codes, not
the overridden Pet values: nothing is painted away from voxel values
48, 32, 96; a voxel at the base grey-matter code 32 is painted the Pet
value 128 while a voxel at value 128 is left at zero; a voxel at the
base skin code 96 is painted 16 (numerically the base csf code) while
a csf voxel at 16 is left at zero. -/
theorem selection_uses_base_codes :
    (∀ v : ℤ, ¬ |v - 48| < 1 → ¬ |v - 32| < 1 → ¬ |v - 96| < 1 →
      paintVoxel petAttr Pet.attrs v = some 0) ∧
    petAttr "greyMatter" = some 128 ∧ actAttr "greyMatter" = some 32 ∧
    petAttr "skin" = some 16 ∧ actAttr "csf" = some 16 ∧
    (∀ v : ℤ, |v - 32| < 1 → paintVoxel petAttr Pet.attrs v = some 128) ∧
    paintVoxel petAttr Pet.attrs 128 = some 0 ∧
    (∀ v : ℤ, |v - 96| < 1 → paintVoxel petAttr Pet.attrs v = some 16) ∧
    paintVoxel petAttr Pet.attrs 16 = some 0 := by
  refine ⟨fun v hw hg hs => ?_, rfl, rfl, rfl, rfl, fun v hg => ?_,
    by decide, fun v hs => ?_, by decide⟩
  · rw [petVoxel_eval]; simp [hw, hg, hs]
  · have hs : ¬ |v - 96| < 1 := by rw [abs_lt] at *; omega
    rw [petVoxel_eval]; simp [hg, hs]
  · rw [petVoxel_eval]; simp [hs]

/-- Witness for C6 at voxels 1000, 32 and 96. -/
theorem selection_uses_base_codes_witness :
    paintVoxel petAttr Pet.attrs 1000 = some 0 ∧
    paintVoxel petAttr Pet.attrs 32 = some 128 ∧
    paintVoxel petAttr Pet.attrs 96 = some 16 :=
  ⟨selection_uses_base_codes.1 1000 (by decide) (by decide) (by decide),
   selection_uses_base_codes.2.2.2.2.2.1 32 (by decide),
   selection_uses_base_codes.2.2.2.2.2.2.2.1 96 (by decide)⟩

/-- C7: a label name absent from the registry yields an AttributeError
(none) from Act.indices, for every volume, the empty one included. -/
theorem unknown_label_fails (attr : String) (h : attr ∉ actNames)
    (hb : attr ≠ "bone") (v : ℤ) (im : List ℤ) :
    Act.indices v attr = none ∧ maskVol im attr = none := by
  have ha : actAttr attr = none := by
    simp only [actNames, List.mem_cons, List.not_mem_nil, or_false,
      not_or] at h
    obtain ⟨h0, h1, h2, h3, h4, h5, h6, h7, h8, h9, h10, h11⟩ := h
    unfold actAttr
    rw [if_neg h0, if_neg h1, if_neg h2, if_neg h3, if_neg h4, if_neg h5,
      if_neg h6, if_neg h7, if_neg h8, if_neg h9, if_neg h10, if_neg h11,
      if_neg hb]
  constructor
  · unfold Act.indices
    rw [if_neg hb]
    simp [indicesBase, ha]
  · unfold maskVol
    rw [if_neg hb]
    simp [baseMaskVol, ha]

/-- Witness for C7 at an unregistered label name. -/
theorem unknown_label_fails_witness :
    Act.indices 5 "foo" = none ∧ maskVol [5, 0] "foo" = none :=
  unknown_label_fails "foo" (by decide) (by decide) 5 [5, 0]

/-- Paint loops over label lists whose selected regions are pairwise
disjoint at a voxel are order-independent at that voxel. -/
theorem paintVoxelLoop_perm (prof : String → Option ℤ) (v : ℤ)
    {l₁ l₂ : List String} (hp : l₁.Perm l₂) :
    (∀ a ∈ l₁, ∀ b ∈ l₁, a ≠ b →
      ¬(Act.indices v a = some true ∧ Act.indices v b = some true)) →
    ∀ acc : ℤ, paintVoxelLoop prof v l₁ acc = paintVoxelLoop prof v l₂ acc := by
  induction hp with
  | nil => intro _ _; rfl
  | cons x p ih =>
      intro hd acc
      simp only [paintVoxelLoop]
      cases hm : Act.indices v x with
      | none => rfl
      | some m =>
        cases hv : prof x with
        | none => rfl
        | some pv =>
          exact ih (fun a ha b hb hne =>
            hd a (List.mem_cons_of_mem x ha) b (List.mem_cons_of_mem x hb)
              hne) _
  | swap x y l =>
      intro hd acc
      by_cases hxy : x = y
      · subst hxy; rfl
      · simp only [paintVoxelLoop]
        cases hmy : Act.indices v y with
        | none =>
          cases hmx : Act.indices v x with
          | none => rfl
          | some mx =>
            cases hvx : prof x with
            | none => simp [hmy, hmx, hvx]
            | some pvx => simp [paintVoxelLoop, hmy, hmx, hvx]
        | some my =>
          cases hvy : prof y with
          | none =>
            cases hmx : Act.indices v x with
            | none => simp [hmy, hvy, hmx]
            | some mx =>
              cases hvx : prof x with
              | none => simp [hmy, hvy, hmx, hvx]
              | some pvx => simp [paintVoxelLoop, hmy, hvy, hmx, hvx]
          | some pvy =>
            cases hmx : Act.indices v x with
            | none => simp [paintVoxelLoop, hmy, hvy, hmx]
            | some mx =>
              cases hvx : prof x with
              | none => simp [paintVoxelLoop, hmy, hvy, hmx, hvx]
              | some pvx =>
                rcases Bool.dichotomy mx with hx | hx <;>
                  rcases Bool.dichotomy my with hy | hy
                · simp [hx, hy]
                · simp [hx, hy]
                · simp [hx, hy]
                · exfalso
                  refine hd y (List.mem_cons_self y _) x
                    (List.mem_cons_of_mem y (List.mem_cons_self x _))
                    (Ne.symm hxy) ⟨?_, ?_⟩
                  · rw [hmy, hy]
                  · rw [hmx, hx]
  | trans p₁ p₂ ih₁ ih₂ =>
      intro hd acc
      rw [ih₁ hd acc]
      exact ih₂ (fun a ha b hb hne =>
        hd a (p₁.mem_iff.mpr ha) b (p₁.mem_iff.mpr hb) hne) acc

/-- Counterexample to C3: in the T1 profile the composite bone label
overlaps the marrow label (voxel value 176 matches both), and permuting
T1.attrs by swapping marrow and bone changes the painted value of that
voxel from 48 to 180. -/
theorem attrs_disjoint_cex :
    ("marrow" ∈ T1.attrs ∧ "bone" ∈ T1.attrs ∧ "marrow" ≠ "bone") ∧
    Act.indices 176 "marrow" = some true ∧
    Act.indices 176 "bone" = some true ∧
    List.Perm ["whiteMatter", "greyMatter", "skin", "skull", "bone",
      "marrow", "csf"] T1.attrs ∧
    paintVoxel t1Attr T1.attrs 176 = some 48 ∧
    paintVoxel t1Attr ["whiteMatter", "greyMatter", "skin", "skull",
      "bone", "marrow", "csf"] 176 = some 180 := by
  refine ⟨⟨by decide, by decide, by decide⟩, by decide, by decide,
    by decide, by decide, by decide⟩

/-- C3 amended: the disjointness-and-order-independence claim holds for
the Pet profile: its three attrs select pairwise disjoint regions, and
the PET paint loop gives the same per-voxel result under every
reordering of Pet.attrs. -/
theorem pet_attrs_disjoint_amended :
    (∀ a ∈ Pet.attrs, ∀ b ∈ Pet.attrs, a ≠ b → ∀ v : ℤ,
      ¬(Act.indices v a = some true ∧ Act.indices v b = some true)) ∧
    (∀ l : List String, l.Perm Pet.attrs → ∀ v : ℤ,
      paintVoxel petAttr l v = paintVoxel petAttr Pet.attrs v) := by
  have h48 : ∀ v : ℤ, Act.indices v "whiteMatter" = some true ↔ v = 48 := by
    intro v
    rw [show Act.indices v "whiteMatter" =
      some (decide (|v - 48| < 1)) from rfl]
    simp [abs_sub_lt_one_int, sub_eq_zero]
  have h32 : ∀ v : ℤ, Act.indices v "greyMatter" = some true ↔ v = 32 := by
    intro v
    rw [show Act.indices v "greyMatter" =
      some (decide (|v - 32| < 1)) from rfl]
    simp [abs_sub_lt_one_int, sub_eq_zero]
  have h96 : ∀ v : ℤ, Act.indices v "skin" = some true ↔ v = 96 := by
    intro v
    rw [show Act.indices v "skin" =
      some (decide (|v - 96| < 1)) from rfl]
    simp [abs_sub_lt_one_int, sub_eq_zero]
  have hdisj : ∀ a ∈ Pet.attrs, ∀ b ∈ Pet.attrs, a ≠ b → ∀ v : ℤ,
      ¬(Act.indices v a = some true ∧ Act.indices v b = some true) := by
    intro a ha b hb hne v
    simp only [Pet.attrs, List.mem_cons, List.not_mem_nil, or_false] at ha hb
    rcases ha with rfl | rfl | rfl <;> rcases hb with rfl | rfl | rfl <;>
      first
        | exact absurd rfl hne
        | (simp only [h48, h32, h96]; omega)
  refine ⟨hdisj, fun l hl v => ?_⟩
  exact paintVoxelLoop_perm petAttr v hl
    (fun a ha b hb hne => hdisj a (hl.mem_iff.mp ha) b (hl.mem_iff.mp hb)
      hne v) 0

/-- Witness for C3 amended: disjointness of the white and grey matter
regions at voxel 48, and order-independence of the PET loop on the
reversed attrs list at voxel 32. -/
theorem pet_attrs_disjoint_amended_witness :
    ¬(Act.indices 48 "whiteMatter" = some true ∧
      Act.indices 48 "greyMatter" = some true) ∧
    paintVoxel petAttr ["skin", "greyMatter", "whiteMatter"] 32 =
      paintVoxel petAttr Pet.attrs 32 :=
  ⟨pet_attrs_disjoint_amended.1 "whiteMatter" (by decide) "greyMatter"
      (by decide) (by decide) 48,
   pet_attrs_disjoint_amended.2 ["skin", "greyMatter", "whiteMatter"]
      (by decide) 32⟩

/-- C8: a negative noise fraction raises ValueError, and a zero
fraction returns the input volume itself; in both cases the random
stream is untouched (the error and the early return come before any
draw). -/
theorem noise_edge_cases (im : List ℚ) (n : ℚ)
    (smooth : List ℚ → List ℚ) (stream : List ℚ) :
    (n < 0 → noise im n smooth stream = .error "Noise must be positive") ∧
    (noise im 0 smooth stream = .ok (im, stream)) := by
  constructor
  · intro h; simp [noise, h]
  · simp [noise]

/-- Witness for C8 at n = -1 and n = 0 on a concrete volume/stream. -/
theorem noise_edge_cases_witness :
    noise [2, 3] (-1) id [1, 0] = .error "Noise must be positive" ∧
    noise [2, 3] 0 id [1, 0] = .ok ([2, 3], [1, 0]) :=
  ⟨(noise_edge_cases [2, 3] (-1) id [1, 0]).1 (by norm_num),
   (noise_edge_cases [2, 3] 0 id [1, 0]).2⟩

/-- C9: for a positive fraction n, and any realization of the uniform
random field with entries in the unit interval, each output voxel is
the input voxel scaled by 1 + n * s for some s in the closed interval
from -1 to 1 (the smoothing collaborator preserving unit-interval
bounds, being an average), so the output-to-input ratio lies within
1 - n to 1 + n wherever the input voxel is nonzero. -/
theorem noise_bounds (im : List ℚ) (n : ℚ) (smooth : List ℚ → List ℚ)
    (stream : List ℚ) (hn : 0 < n)
    (hstream : ∀ x ∈ stream, 0 ≤ x ∧ x ≤ 1)
    (hsmooth : ∀ l : List ℚ, (∀ x ∈ l, 0 ≤ x ∧ x ≤ 1) →
      ∀ y ∈ smooth l, 0 ≤ y ∧ y ≤ 1)
    (out rest : List ℚ) (hout : noise im n smooth stream = .ok (out, rest)) :
    ∀ i (hi : i < out.length), ∃ him : i < im.length, ∃ s : ℚ,
      -1 ≤ s ∧ s ≤ 1 ∧
      out[i] = im[i] * (1 + n * s) ∧
      (im[i] ≠ 0 → 1 - n ≤ out[i] / im[i] ∧ out[i] / im[i] ≤ 1 + n) := by
  intro i hi
  have hn0 : ¬ n < 0 := by linarith
  have hne : ¬ n = 0 := by linarith
  rw [noise, if_neg hn0, if_neg hne] at hout
  have hpair := Except.ok.inj hout
  have hout' : (im.zip (smooth (stream.take im.length))).map
      (fun p => p.1 * (1 + n * (2 * p.2 - 1))) = out :=
    congrArg Prod.fst hpair
  subst hout'
  have hlen : i < (im.zip (smooth (stream.take im.length))).length := by
    simpa using hi
  rw [List.length_zip, lt_min_iff] at hlen
  have him : i < im.length := hlen.1
  have hr : i < (smooth (stream.take im.length)).length := hlen.2
  have hb := hsmooth (stream.take im.length)
    (fun x hx => hstream x (List.mem_of_mem_take hx))
    ((smooth (stream.take im.length))[i]) (List.getElem_mem hr)
  refine ⟨him, 2 * (smooth (stream.take im.length))[i] - 1,
    by linarith [hb.1], by linarith [hb.2], ?_, ?_⟩
  · rw [List.getElem_map, List.getElem_zip]
  · intro hnz
    have hget : (List.map (fun p : ℚ × ℚ => p.1 * (1 + n * (2 * p.2 - 1)))
          (im.zip (smooth (stream.take im.length))))[i] / im[i] =
        1 + n * (2 * (smooth (stream.take im.length))[i] - 1) := by
      rw [List.getElem_map, List.getElem_zip]
      exact mul_div_cancel_left₀ _ hnz
    rw [hget]
    constructor <;> nlinarith [hb.1, hb.2]

/-- Witness for C9: one voxel of value 2 with noise fraction one half
and a unit random draw gives output 3, within the stated bounds. -/
theorem noise_bounds_witness :
    noise [2] (1/2) id [1] = .ok ([3], []) ∧
    (∃ him : (0 : ℕ) < ([(2 : ℚ)]).length, ∃ s : ℚ, -1 ≤ s ∧ s ≤ 1 ∧
      ([(3 : ℚ)])[0] = ([(2 : ℚ)])[0] * (1 + (1/2) * s) ∧
      (([(2 : ℚ)])[0] ≠ 0 →
        1 - 1/2 ≤ ([(3 : ℚ)])[0] / ([(2 : ℚ)])[0] ∧
        ([(3 : ℚ)])[0] / ([(2 : ℚ)])[0] ≤ 1 + 1/2)) := by
  have h : noise [2] (1/2) id [1] = .ok ([3], []) := by
    norm_num [noise]
  refine ⟨h, noise_bounds [2] (1/2) id [1] (by norm_num) ?_
    (fun l hl y hy => hl y hy) [3] [] h 0 (by norm_num)⟩
  intro x hx
  rw [List.mem_singleton] at hx
  subst hx
  norm_num

/-- A fold of steps that each leave the im field unchanged leaves the
im field unchanged. -/
theorem foldlM_im_eq (f : MmrState → String → Option MmrState)
    (hf : ∀ s a t, f s a = some t → t.im = s.im) :
    ∀ (attrs : List String) (σ σ' : MmrState),
      attrs.foldlM f σ = some σ' → σ'.im = σ.im := by
  intro attrs
  induction attrs with
  | nil =>
    intro σ σ' h
    rw [List.foldlM_nil] at h
    rw [← Option.some.inj h]
  | cons a t ih =>
    intro σ σ' h
    rw [List.foldlM_cons] at h
    obtain ⟨τ, hfa, h'⟩ := Option.bind_eq_some.mp h
    rw [ih τ σ' h', hf σ a τ hfa]

/-- The PET loop leaves the input volume untouched. -/
theorem petLoop_im_eq (σ σ' : MmrState) (h : petLoop σ = some σ') :
    σ'.im = σ.im := by
  refine foldlM_im_eq _ ?_ Pet.attrs σ σ' h
  intro s a t ht
  obtain ⟨pv, hv, ht1⟩ := Option.bind_eq_some.mp ht
  obtain ⟨r, hm, ht2⟩ := Option.bind_eq_some.mp ht1
  rw [← Option.some.inj ht2]

/-- The T1 loop leaves the input volume untouched. -/
theorem t1Loop_im_eq (σ σ' : MmrState) (h : t1Loop σ = some σ') :
    σ'.im = σ.im := by
  refine foldlM_im_eq _ ?_ T1.attrs σ σ' h
  intro s a t ht
  obtain ⟨pv, hv, ht1⟩ := Option.bind_eq_some.mp ht
  obtain ⟨r, hm, ht2⟩ := Option.bind_eq_some.mp ht1
  rw [← Option.some.inj ht2]

/-- The T2 loop leaves the input volume untouched. -/
theorem t2Loop_im_eq (σ σ' : MmrState) (h : t2Loop σ = some σ') :
    σ'.im = σ.im := by
  refine foldlM_im_eq _ ?_ T2.attrs σ σ' h
  intro s a t ht
  obtain ⟨pv, hv, ht1⟩ := Option.bind_eq_some.mp ht
  obtain ⟨r, hm, ht2⟩ := Option.bind_eq_some.mp ht1
  rw [← Option.some.inj ht2]

/-- C10: the paint phase of toPetMmr consumes the labeled volume
read-only: whatever state it produces still carries the input volume
unchanged in its im field, every write going to the four freshly
allocated output volumes. -/
theorem toPetMmr_preserves_input (im : List ℤ) (σ : MmrState)
    (h : toPetMmrPaint im = some σ) : σ.im = im := by
  have h0 : Option.bind (petLoop ⟨im, List.replicate im.length 0,
      List.replicate im.length 0, List.replicate im.length 0,
      List.replicate im.length 0⟩) (fun σ1 => Option.bind (muStep σ1)
      (fun σ2 => Option.bind (t1Loop σ2) (fun σ3 => t2Loop σ3))) =
      some σ := h
  obtain ⟨σ1, h1, h'⟩ := Option.bind_eq_some.mp h0
  obtain ⟨σ2, h2, h''⟩ := Option.bind_eq_some.mp h'
  obtain ⟨σ3, h3, h4⟩ := Option.bind_eq_some.mp h''
  have e4 : σ.im = σ3.im := t2Loop_im_eq σ3 σ h4
  have e3 : σ3.im = σ2.im := t1Loop_im_eq σ2 σ3 h3
  have e2 : σ2.im = σ1.im := by
    have h2' : Option.bind (maskVol σ1.im "bone") (fun b =>
        some { σ1 with muMap := (((σ1.im.zip σ1.muMap).map fun p =>
          if p.1 ≠ 0 then mu_tissue_1_cm else p.2).zip b).map fun p =>
          if p.2 then mu_bone_1_cm else p.1 }) = some σ2 := h2
    obtain ⟨b, hb, h5⟩ := Option.bind_eq_some.mp h2'
    rw [← Option.some.inj h5]
  have e1 : σ1.im = im := petLoop_im_eq _ σ1 h1
  rw [e4, e3, e2, e1]

/-- Witness for C10 on a one-voxel bone volume. -/
theorem toPetMmr_preserves_input_witness :
    (toPetMmrPaint [112]).map MmrState.im = some [112] := by
  cases heq : toPetMmrPaint [112] with
  | none => exact absurd heq (by decide)
  | some σ =>
    rw [show Option.map MmrState.im (some σ) = some σ.im from rfl,
      toPetMmr_preserves_input [112] σ heq]

/-- Truncation toward zero of an integer is that integer. -/
theorem truncQ_intCast (k : ℤ) : truncQ (k : ℚ) = k := by
  unfold truncQ
  split
  · exact Int.floor_intCast k
  · exact Int.ceil_intCast k

/-- Pad widths for an axis whose target extent is the integer k at
least the resampled extent n: left (k - n) div 2, right that quotient
plus the remainder, both nonnegative, totalling the deficit k - n. -/
theorem padWidthsAxis_int (t : ℚ) (k n : ℤ) (hk : t = (k : ℚ))
    (h : n ≤ k) :
    padWidthsAxis t n = ((k - n) / 2, (k - n) / 2 + (k - n) % 2) ∧
    0 ≤ (k - n) / 2 ∧ 0 ≤ (k - n) / 2 + (k - n) % 2 ∧
    n + ((k - n) / 2) + ((k - n) / 2 + (k - n) % 2) = k := by
  subst hk
  have hcast : ((k : ℚ) - n) = ((k - n : ℤ) : ℚ) := by push_cast; ring
  have hfloor : ⌊((k : ℚ) - n) / 2⌋ = (k - n) / 2 := by
    rw [hcast, show ((2 : ℚ)) = ((2 : ℕ) : ℚ) by norm_num,
      Rat.floor_intCast_div_natCast]
    norm_num
  refine ⟨?_, by omega, by omega, by omega⟩
  simp only [padWidthsAxis, hfloor]
  have hr : (k : ℚ) - (n : ℚ) - 2 * (((k - n) / 2 : ℤ) : ℚ) =
      (((k - n) % 2 : ℤ) : ℚ) := by
    rw [show ((k - n) % 2 : ℤ) = (k - n) - 2 * ((k - n) / 2) by omega]
    push_cast
    ring
  rw [hr, show (((k - n) / 2 : ℤ) : ℚ) + (((k - n) % 2 : ℤ) : ℚ) =
    (((k - n) / 2 + (k - n) % 2 : ℤ) : ℚ) by push_cast; ring,
    truncQ_intCast]

/-- Counterexample to C4: a labeled volume of shape 600 by 344 by 344
resamples (for the default mMR target) to a first axis of 148 voxels,
larger than the target extent 127, so the pad width is negative and
np.pad raises instead of returning target-shaped volumes; and for the
MR target the registry shape is not integral, and the padded shape
257 by 717 by 717 differs from it. -/
theorem toPetMmr_shape_cex :
    toPetMmrMeta [600, 344, 344] true Dtype.float32 "mMR" = none ∧
    toPetMmrMeta [362, 434, 362] true Dtype.float32 "MR" =
      some (List.replicate 4 ([257, 717, 717], Dtype.float32)) ∧
    Shape.get "MR" = some Shape.MR ∧
    ¬ ([(257 : ℤ), 717, 717]).map (fun k => (k : ℚ)) = Shape.MR := by
  refine ⟨?_, ?_, rfl, ?_⟩
  · norm_num [toPetMmrMeta, resizeToMmrMeta, resizeToMmrShape, Res.get,
      Shape.get, newShape, Res.mMR, Res.brainweb, Shape.mMR, rint,
      padWidthsAxis, truncQ]
  · have h1 : Res.get "MR" = some Res.MR := rfl
    have h2 : Shape.get "MR" = some Shape.MR := rfl
    norm_num [toPetMmrMeta, resizeToMmrMeta, resizeToMmrShape, h1, h2,
      newShape, Res.mMR, Res.MR, Res.brainweb, Shape.mMR, Shape.MR, rint,
      padWidthsAxis, truncQ, finalizeDtype, resizeOutputDtype,
      List.replicate]
  · norm_num [Shape.MR, Shape.mMR, Res.mMR, Res.MR]

/-- C4 amended: for the default mMR target, a 3-D labeled volume whose
per-axis resampled shape does not exceed the target shape yields four
volumes (PET, muMap, T1, T2 metadata alike), each padded to exactly
127 by 344 by 344 with the requested dtype; and per axis the pad is
(target - new) div 2 zeros on the left and that quotient plus the
remainder on the right. -/
theorem toPetMmr_shape_amended (ishape : List ℕ) (dt : Dtype)
    (h3 : ishape.length = 3)
    (hle : ∀ p ∈ (newShape ishape Res.mMR).zip Shape.mMR, (p.1 : ℚ) ≤ p.2) :
    toPetMmrMeta ishape true dt "mMR" =
      some (List.replicate 4 ([127, 344, 344], dt)) ∧
    (∀ t n : ℤ, n ≤ t →
      padWidthsAxis (t : ℚ) n = ((t - n) / 2, (t - n) / 2 + (t - n) % 2)) := by
  refine ⟨?_, fun t n h => (padWidthsAxis_int (t : ℚ) t n rfl h).1⟩
  obtain ⟨a, b, c, rfl⟩ := List.length_eq_three.mp h3
  have hns : newShape [a, b, c] Res.mMR =
      [rint ((a : ℚ) * 0.5 / 2.0312), rint ((b : ℚ) * 0.5 / 2.0863),
       rint ((c : ℚ) * 0.5 / 2.0863)] := rfl
  rw [hns] at hle
  have hzip : ([rint ((a : ℚ) * 0.5 / 2.0312), rint ((b : ℚ) * 0.5 / 2.0863),
      rint ((c : ℚ) * 0.5 / 2.0863)].zip Shape.mMR) =
      [(rint ((a : ℚ) * 0.5 / 2.0312), (127 : ℚ)),
       (rint ((b : ℚ) * 0.5 / 2.0863), (344 : ℚ)),
       (rint ((c : ℚ) * 0.5 / 2.0863), (344 : ℚ))] := rfl
  rw [hzip] at hle
  have hle0 : rint ((a : ℚ) * 0.5 / 2.0312) ≤ (127 : ℤ) := by
    have h' := hle _ (List.mem_cons_self _ _)
    simp only at h'
    exact_mod_cast h'
  have hle1 : rint ((b : ℚ) * 0.5 / 2.0863) ≤ (344 : ℤ) := by
    have h' := hle _ (List.mem_cons_of_mem _ (List.mem_cons_self _ _))
    simp only at h'
    exact_mod_cast h'
  have hle2 : rint ((c : ℚ) * 0.5 / 2.0863) ≤ (344 : ℤ) := by
    have h' := hle _ (List.mem_cons_of_mem _
      (List.mem_cons_of_mem _ (List.mem_cons_self _ _)))
    simp only at h'
    exact_mod_cast h'
  have h0 := padWidthsAxis_int (127 : ℚ) 127 (rint ((a : ℚ) * 0.5 / 2.0312))
    (by norm_num) hle0
  have h1 := padWidthsAxis_int (344 : ℚ) 344 (rint ((b : ℚ) * 0.5 / 2.0863))
    (by norm_num) hle1
  have h2 := padWidthsAxis_int (344 : ℚ) 344 (rint ((c : ℚ) * 0.5 / 2.0863))
    (by norm_num) hle2
  have hshape : resizeToMmrShape (newShape [a, b, c] Res.mMR) true
      Shape.mMR = some [127, 344, 344] := by
    have hunfold : resizeToMmrShape (newShape [a, b, c] Res.mMR) true
        Shape.mMR =
        (if ([padWidthsAxis (127 : ℚ) (rint ((a : ℚ) * 0.5 / 2.0312)),
          padWidthsAxis (344 : ℚ) (rint ((b : ℚ) * 0.5 / 2.0863)),
          padWidthsAxis (344 : ℚ) (rint ((c : ℚ) * 0.5 / 2.0863))].all
            fun w => decide (0 ≤ w.1) && decide (0 ≤ w.2)) then
          some (List.zipWith (fun n (w : ℤ × ℤ) => n + w.1 + w.2)
            [rint ((a : ℚ) * 0.5 / 2.0312), rint ((b : ℚ) * 0.5 / 2.0863),
             rint ((c : ℚ) * 0.5 / 2.0863)]
            [padWidthsAxis (127 : ℚ) (rint ((a : ℚ) * 0.5 / 2.0312)),
             padWidthsAxis (344 : ℚ) (rint ((b : ℚ) * 0.5 / 2.0863)),
             padWidthsAxis (344 : ℚ) (rint ((c : ℚ) * 0.5 / 2.0863))])
        else none) := rfl
    rw [hunfold, h0.1, h1.1, h2.1]
    have hall : ([((127 - rint ((a : ℚ) * 0.5 / 2.0312)) / 2,
        (127 - rint ((a : ℚ) * 0.5 / 2.0312)) / 2 +
          (127 - rint ((a : ℚ) * 0.5 / 2.0312)) % 2),
        ((344 - rint ((b : ℚ) * 0.5 / 2.0863)) / 2,
        (344 - rint ((b : ℚ) * 0.5 / 2.0863)) / 2 +
          (344 - rint ((b : ℚ) * 0.5 / 2.0863)) % 2),
        ((344 - rint ((c : ℚ) * 0.5 / 2.0863)) / 2,
        (344 - rint ((c : ℚ) * 0.5 / 2.0863)) / 2 +
          (344 - rint ((c : ℚ) * 0.5 / 2.0863)) % 2)].all
          fun w => decide (0 ≤ w.1) && decide (0 ≤ w.2)) = true := by
      simp only [List.all_cons, List.all_nil, Bool.and_true]
      rw [decide_eq_true h0.2.1, decide_eq_true h0.2.2.1,
        decide_eq_true h1.2.1, decide_eq_true h1.2.2.1,
        decide_eq_true h2.2.1, decide_eq_true h2.2.2.1]
      rfl
    rw [hall]
    simp only [if_true]
    refine congrArg some ?_
    simp only [List.zipWith_cons_cons, List.zipWith_nil_right]
    have e0 : rint ((a : ℚ) * 0.5 / 2.0312) +
        (127 - rint ((a : ℚ) * 0.5 / 2.0312)) / 2 +
        ((127 - rint ((a : ℚ) * 0.5 / 2.0312)) / 2 +
          (127 - rint ((a : ℚ) * 0.5 / 2.0312)) % 2) = 127 := by
      omega
    have e1 : rint ((b : ℚ) * 0.5 / 2.0863) +
        (344 - rint ((b : ℚ) * 0.5 / 2.0863)) / 2 +
        ((344 - rint ((b : ℚ) * 0.5 / 2.0863)) / 2 +
          (344 - rint ((b : ℚ) * 0.5 / 2.0863)) % 2) = 344 := by
      omega
    have e2 : rint ((c : ℚ) * 0.5 / 2.0863) +
        (344 - rint ((c : ℚ) * 0.5 / 2.0863)) / 2 +
        ((344 - rint ((c : ℚ) * 0.5 / 2.0863)) / 2 +
          (344 - rint ((c : ℚ) * 0.5 / 2.0863)) % 2) = 344 := by
      omega
    rw [e0, e1, e2]
  have hm : resizeToMmrMeta [a, b, c] true dt "mMR" =
      some ([127, 344, 344], dt) := by
    have hdef : resizeToMmrMeta [a, b, c] true dt "mMR" =
        Option.bind (resizeToMmrShape (newShape [a, b, c] Res.mMR) true
          Shape.mMR) (fun fs => some (fs, finalizeDtype resizeOutputDtype
          dt)) := rfl
    rw [hdef, hshape]
    rfl
  have hdef2 : toPetMmrMeta [a, b, c] true dt "mMR" =
      Option.bind (resizeToMmrMeta [a, b, c] true dt "mMR")
        (fun m => some [m, m, m, m]) := rfl
  rw [hdef2, hm]
  rfl

/-- Witness for C4 amended at the native brainweb volume shape 362 by
434 by 362 and dtype float32. -/
theorem toPetMmr_shape_amended_witness :
    toPetMmrMeta [362, 434, 362] true Dtype.float32 "mMR" =
      some (List.replicate 4 ([127, 344, 344], Dtype.float32)) :=
  (toPetMmr_shape_amended [362, 434, 362] Dtype.float32 rfl (by
    norm_num [newShape, Res.mMR, Res.brainweb, Shape.mMR, rint])).1

end Brainweb
